import Mathlib

/-
Shallow embedding of the checkout / order views of the
Slightly-Techie/discount-ecommerce-api repository.

The embedded code is `api/orders/views.py` (CheckoutView.post,
OrderListView.get_queryset, OrderDetailView.get_queryset,
OrderStatusUpdateView.patch) together with
`api/common/permissions.py` (IsAdminManagerOrApprovedVendorAdmin).

Django model classes (Cart, CartItem, Product, Order, OrderItem, Coupon,
CouponUsage) and the pricing collaborators `calculate_shipping` /
`calculate_tax` are not part of the provided sources; they are modelled
from the spec as record types and abstract function parameters.

Python `Decimal` arithmetic is idealized as exact rational arithmetic;
`Decimal.quantize(Decimal("0.01"))` with the default ROUND_HALF_EVEN
context is modelled by `quantize2` below.
-/

namespace DiscountShop

abbrev Money := ℚ
abbrev VendorId := ℕ
abbrev ProductId := ℕ
abbrev UserId := ℕ

/-- Round a rational to an integer, ties to even: the default rounding
mode (ROUND_HALF_EVEN) that `Decimal.quantize` uses in CheckoutView.post. -/
def rhe (x : ℚ) : ℤ :=
  if x - ⌊x⌋ = 1 / 2 then (if ⌊x⌋ % 2 = 0 then ⌊x⌋ else ⌊x⌋ + 1) else round x

/-- Model of `(...).quantize(Decimal("0.01"))`: round to two decimal places,
ties to even. -/
def quantize2 (x : ℚ) : ℚ := (rhe (100 * x) : ℚ) / 100

/-- Modelled from the spec: the product catalog rows read during checkout
(name, price, vendor_id); the Product model itself is not in the provided
sources.  The mutable stock counter is kept separately in `CheckoutState`. -/
structure Product where
  name : String
  price : Money
  vendorId : Option VendorId
deriving DecidableEq

/-- Modelled from the spec: a cart line (product reference and a quantity);
the CartItem model is not in the provided sources. -/
structure CartItem where
  productId : ProductId
  quantity : ℕ
deriving DecidableEq

/-- Modelled from the spec: the user's cart row (`is_active`, `checked_out`,
and its items); the Cart model is not in the provided sources. -/
structure Cart where
  isActive : Bool
  checkedOut : Bool
  items : List CartItem
deriving DecidableEq

/-- Modelled from the spec: an address book entry; only the `is_default`
flag is observable by the checkout code. -/
structure Address where
  id : ℕ
  isDefault : Bool
deriving DecidableEq

inductive OrderStatus where
  | pending
  | processing
  | shipped
  | delivered
  | cancelled
deriving DecidableEq

/-- Snapshot line of an order, as created by CheckoutView.post
(product id, denormalized product name, quantity, denormalized unit price). -/
structure OrderItem where
  productId : ProductId
  productName : String
  quantity : ℕ
  price : Money
deriving DecidableEq

/-- An order row as created by CheckoutView.post; `items` holds the
OrderItem rows belonging to the order. -/
structure Order where
  userId : UserId
  vendorId : Option VendorId
  status : OrderStatus
  total : Money
  discount : Money
  tax : Money
  shipping : Money
  couponCode : Option String
  items : List OrderItem
  trackingNumber : Option String
  adminNote : Option String
deriving DecidableEq

/-- Modelled from the spec: a coupon row together with its two collaborator
methods `is_valid_for_user(user, subtotal) -> (bool, reason)` and
`calculate_discount(subtotal) -> decimal`; the Coupon model is not in the
provided sources. -/
structure Coupon where
  code : String
  validFor : UserId → Money → Bool × String
  calcDiscount : Money → Money

/-- A CouponUsage join row (coupon, user, order), created once per checkout. -/
structure CouponUsage where
  couponCode : String
  userId : UserId
  order : Order
deriving DecidableEq

/-- The persistent state touched by one user's checkout: catalog and stock,
the user's addresses, the user's cart row, and the order / coupon tables. -/
structure CheckoutState where
  products : ProductId → Product
  stocks : ProductId → ℤ
  addresses : List Address
  cart : Option Cart
  orders : List Order
  couponUsages : List CouponUsage
  coupons : List Coupon

inductive CheckoutError where
  | noAddress
  | cartEmpty
  | invalidCouponCode
  | couponInvalid (reason : String)
deriving DecidableEq

/-- The successful response payload: the created orders in creation order,
plus whether the shipping warning was recorded. -/
structure CheckoutOk where
  orders : List Order
  shippingWarning : Bool
deriving DecidableEq

/-- Model of `user.addresses.filter(is_default=True).first() or user.addresses.first()`. -/
def resolveAddress (addrs : List Address) : Option Address :=
  match (addrs.filter (fun a => a.isDefault)).head? with
  | some a => some a
  | none => addrs.head?

/-- One step of `items_by_vendor.setdefault(vendor_id, []).append(item)`:
append the item to the group with the given key, creating the group at the
end on first occurrence (Python dicts preserve insertion order). -/
def insertItem (gs : List (Option VendorId × List CartItem)) (key : Option VendorId)
    (it : CartItem) : List (Option VendorId × List CartItem) :=
  match gs with
  | [] => [(key, [it])]
  | (k, its) :: rest =>
      if k = key then (k, its ++ [it]) :: rest else (k, its) :: insertItem rest key it

/-- The grouping loop of CheckoutView.post: group cart items by
`item.product.vendor_id` (None is the platform group). -/
def groupByVendor (ps : ProductId → Product) (l : List CartItem) :
    List (Option VendorId × List CartItem) :=
  l.foldl (fun gs it => insertItem gs (ps it.productId).vendorId it) []

/-- Model of `vendor_subtotal += item.product.price * item.quantity` summed over a list. -/
def itemsSubtotal (ps : ProductId → Product) (l : List CartItem) : Money :=
  (l.map (fun it => (ps it.productId).price * (it.quantity : ℚ))).sum

/-- Model of `discounts_by_vendor.get(vendor_id, Decimal("0"))` (also used for the
subtotal dictionary, whose keys are always present). -/
def lookupAlloc (l : List (Option VendorId × Money)) (k : Option VendorId) : Money :=
  match l.find? (fun a => a.1 = k) with
  | some a => a.2
  | none => 0

/-- The allocation loop body of CheckoutView.post: every group except the
last receives `quantize2 (discount * (subtotal / total))`, the last group in
iteration order receives the running remainder. -/
def allocGo (d T : ℚ) : ℚ → List (Option VendorId × Money) → List (Option VendorId × Money)
  | _, [] => []
  | remaining, (k, s) :: rest =>
      match rest with
      | [] => [(k, remaining)]
      | _ :: _ =>
          let portion := quantize2 (d * (s / T))
          (k, portion) :: allocGo d T (remaining - portion) rest

/-- The full discount allocation of CheckoutView.post, including the
`if discount > 0 and total_subtotal > 0` guard (otherwise every group
gets 0). -/
def allocateDiscounts (d : ℚ) (subs : List (Option VendorId × Money)) (T : ℚ) :
    List (Option VendorId × Money) :=
  if 0 < d ∧ 0 < T then allocGo d T d subs
  else subs.map (fun g => (g.1, (0 : ℚ)))

/-- The OrderItem snapshot built inside the per-item loop. -/
def mkOrderItem (ps : ProductId → Product) (it : CartItem) : OrderItem :=
  { productId := it.productId
    productName := (ps it.productId).name
    quantity := it.quantity
    price := (ps it.productId).price }

/-- The stock side of the per-item loop of CheckoutView.post:
`item.product.stock = max(item.product.stock - item.quantity, 0)` applied to
each item in turn (the OrderItem snapshots are `mkOrderItem` of each item). -/
def applyStocks : List CartItem → (ProductId → ℤ) → (ProductId → ℤ)
  | [], stocks => stocks
  | it :: rest, stocks =>
      applyStocks rest
        (fun pid => if pid = it.productId then max (stocks pid - (it.quantity : ℤ)) 0
                    else stocks pid)

/-- The order built for one vendor group (total, discount, tax, shipping and
coupon link exactly as in CheckoutView.post). -/
def mkOrderFor (ship : Money → Address → Option Money) (tax : Money → Address → Money)
    (uid : UserId) (addr : Address) (cc : Option String) (ps : ProductId → Product)
    (subs allocs : List (Option VendorId × Money))
    (g : Option VendorId × List CartItem) : Order :=
  let vsub := lookupAlloc subs g.1
  let vdisc := lookupAlloc allocs g.1
  let shipping := (ship vsub addr).getD 0
  let t := tax vsub addr
  { userId := uid
    vendorId := g.1
    status := OrderStatus.pending
    total := vsub + shipping + t - vdisc
    discount := vdisc
    tax := t
    shipping := shipping
    couponCode := cc
    items := g.2.map (mkOrderItem ps)
    trackingNumber := none
    adminNote := none }

/-- The order-creation loop of CheckoutView.post over vendor groups: creates
one order per group, threads the stock map through the item loops, and
records whether `calculate_shipping` returned None for some group (the
shipping warning). -/
def materialize (ship : Money → Address → Option Money) (tax : Money → Address → Money)
    (uid : UserId) (addr : Address) (cc : Option String) (ps : ProductId → Product)
    (subs allocs : List (Option VendorId × Money)) :
    List (Option VendorId × List CartItem) → (ProductId → ℤ) →
    List Order × (ProductId → ℤ) × Bool
  | [], stocks => ([], stocks, false)
  | g :: rest, stocks =>
      let m := materialize ship tax uid addr cc ps subs allocs rest (applyStocks g.2 stocks)
      (mkOrderFor ship tax uid addr cc ps subs allocs g :: m.1,
       m.2.1,
       ((ship (lookupAlloc subs g.1) addr).isNone || m.2.2))

/-- The coupon block of CheckoutView.post: look up the code, validate it for
the user against the total subtotal, and compute the discount. -/
def resolveCouponAndDiscount (coupons : List Coupon) (uid : UserId)
    (cc : Option String) (T : Money) : Except CheckoutError (Option Coupon × Money) :=
  match cc with
  | none => Except.ok (none, 0)
  | some code =>
      match coupons.find? (fun c => c.code = code) with
      | none => Except.error CheckoutError.invalidCouponCode
      | some c =>
          let vr := c.validFor uid T
          if vr.1 then Except.ok (some c, c.calcDiscount T)
          else Except.error (CheckoutError.couponInvalid vr.2)

/-- The mutating tail of CheckoutView.post (inside `transaction.atomic`):
allocate discounts, materialize one order per group, record CouponUsage once
(for the first created order) when a coupon was applied, clear the cart
items and mark the cart checked out (keeping it active). -/
def checkoutCore (ship : Money → Address → Option Money) (tax : Money → Address → Money)
    (uid : UserId) (addr : Address) (cart : Cart)
    (groups : List (Option VendorId × List CartItem))
    (subs : List (Option VendorId × Money)) (T : Money)
    (coupon : Option Coupon) (d : Money) (st : CheckoutState) :
    CheckoutOk × CheckoutState :=
  let allocs := allocateDiscounts d subs T
  let m := materialize ship tax uid addr (coupon.map (fun c => c.code)) st.products
    subs allocs groups st.stocks
  let usages :=
    match coupon, m.1 with
    | some c, o :: _ => st.couponUsages ++ [{ couponCode := c.code, userId := uid, order := o }]
    | _, _ => st.couponUsages
  ({ orders := m.1, shippingWarning := m.2.2 },
   { st with
       stocks := m.2.1
       orders := st.orders ++ m.1
       couponUsages := usages
       cart := some { cart with items := [], checkedOut := true } })

/-- CheckoutView.post: resolve the address, the active cart and its items,
run the coupon block, and perform the transactional tail.  Every error
branch returns an HTTP 400 response and leaves the state untouched. -/
def checkout (ship : Money → Address → Option Money) (tax : Money → Address → Money)
    (uid : UserId) (cc : Option String) (st : CheckoutState) :
    Except CheckoutError CheckoutOk × CheckoutState :=
  match resolveAddress st.addresses with
  | none => (Except.error CheckoutError.noAddress, st)
  | some addr =>
      match st.cart with
      | none => (Except.error CheckoutError.cartEmpty, st)
      | some cart =>
          if cart.isActive = false then (Except.error CheckoutError.cartEmpty, st)
          else if cart.items = [] then (Except.error CheckoutError.cartEmpty, st)
          else
            let groups := groupByVendor st.products cart.items
            let subs := groups.map (fun g => (g.1, itemsSubtotal st.products g.2))
            let T := (subs.map Prod.snd).sum
            match resolveCouponAndDiscount st.coupons uid cc T with
            | Except.error e => (Except.error e, st)
            | Except.ok cd =>
                let r := checkoutCore ship tax uid addr cart groups subs T cd.1 cd.2 st
                (Except.ok r.1, r.2)

/-- The cart items visible in a state (empty when there is no cart row). -/
def cartItemsOf (st : CheckoutState) : List CartItem :=
  match st.cart with
  | some c => c.items
  | none => []

/-- The total cart subtotal of a state, summed directly over the cart items. -/
def cartSubtotalOf (st : CheckoutState) : Money :=
  itemsSubtotal st.products (cartItemsOf st)

/-- The total coupon discount a checkout with the given coupon code computes
(0 when no coupon code is supplied or the code is unknown). -/
def checkoutDiscountOf (st : CheckoutState) (cc : Option String) : Money :=
  match cc with
  | none => 0
  | some code =>
      match st.coupons.find? (fun c => c.code = code) with
      | none => 0
      | some c => c.calcDiscount (cartSubtotalOf st)

/-- The orders carried by a checkout result (empty on error). -/
def checkoutOrders (r : Except CheckoutError CheckoutOk) : List Order :=
  match r with
  | Except.ok res => res.orders
  | Except.error _ => []

def isOkB {ε α : Type} (r : Except ε α) : Bool :=
  match r with
  | Except.ok _ => true
  | Except.error _ => false

/-- Total quantity of a given product ordered by the checkout
(summed over the cart items referencing it). -/
def orderedQty (st : CheckoutState) (pid : ProductId) : ℤ :=
  (((cartItemsOf st).filter (fun it => it.productId = pid)).map
    (fun it => (it.quantity : ℤ))).sum

/-- Subtotal of an order derived from its snapshot items. -/
def orderItemsSubtotal (o : Order) : Money :=
  (o.items.map (fun oi => oi.price * (oi.quantity : ℚ))).sum

/-- A vendor row, from the Vendor model in api/vendors/models.py: `status`
is a string column whose choices are "pending", "approved", "rejected" and
"suspended" (default "pending"), and `id` is the primary key that
`user.vendor_id` references.  The remaining columns (name, slug,
rejection_reason and the optional business/contact fields) are never read
by the embedded views and permission checks, which compare `status` as a
raw string (`vendor.status == "approved"` in api/common/permissions.py). -/
structure Vendor where
  id : VendorId
  status : String
deriving DecidableEq

/-- A request user as seen by the order views: role string, staff and
superuser flags, authentication flag and an optional linked vendor. -/
structure User where
  id : UserId
  isAuthenticated : Bool
  isStaff : Bool
  isSuperuser : Bool
  role : String
  vendor : Option Vendor
deriving DecidableEq

/-- Model of `getattr(request.user, "vendor_id", None)`. -/
def userVendorId (u : User) : Option VendorId :=
  u.vendor.map (fun v => v.id)

/-- Model of `IsAdminManagerOrApprovedVendorAdmin.has_permission` from
api/common/permissions.py. -/
def isAdminManagerOrApprovedVendorAdmin (u : User) : Bool :=
  if u.isAuthenticated = false then false
  else if u.role = "admin" ∨ u.role = "manager" ∨ u.isStaff = true ∨ u.isSuperuser = true
  then true
  else
    match u.vendor with
    | none => false
    | some v => decide (u.role = "vendor_admin") && decide (v.status = "approved")

inductive PatchResult where
  | unauthenticated
  | forbidden
  | notFound
  | statusUpdated (newStatus : String)
  | invalidTransition
  | updated
deriving DecidableEq

/-- Model of `order.tracking_number = tracking_number` and of `order.admin_note = admin_note`
guarded by `is not None`. -/
def applyPatchFields (o : Order) (trackingNumber adminNote : Option String) : Order :=
  { o with
      trackingNumber :=
        match trackingNumber with
        | some t => some t
        | none => o.trackingNumber
      adminNote :=
        match adminNote with
        | some a => some a
        | none => o.adminNote }

/-- OrderStatusUpdateView.patch behind its permission classes
(IsAuthenticated, IsAdminManagerOrApprovedVendorAdmin).  The order table is a
partial map from primary key to order; `setStatus` is the Order model's
`set_status` collaborator, modelled from the spec: it returns the updated
order on a valid transition and `none` (no mutation) on an invalid one. -/
def orderStatusUpdatePatch (setStatus : Order → String → Option Order) (u : User)
    (db : ℕ → Option Order) (pk : ℕ)
    (newStatus trackingNumber adminNote : Option String) :
    PatchResult × (ℕ → Option Order) :=
  if u.isAuthenticated = false then (PatchResult.unauthenticated, db)
  else if isAdminManagerOrApprovedVendorAdmin u = false then (PatchResult.forbidden, db)
  else
    match db pk with
    | none => (PatchResult.notFound, db)
    | some order =>
        if u.role = "vendor_admin" ∧ order.vendorId ≠ userVendorId u then
          (PatchResult.notFound, db)
        else
          let o1 := applyPatchFields order trackingNumber adminNote
          match newStatus with
          | some ns =>
              if ns = "" then
                (PatchResult.updated, fun k => if k = pk then some o1 else db k)
              else
                match setStatus o1 ns with
                | some o2 =>
                    (PatchResult.statusUpdated ns, fun k => if k = pk then some o2 else db k)
                | none => (PatchResult.invalidTransition, db)
          | none => (PatchResult.updated, fun k => if k = pk then some o1 else db k)

/-- OrderListView.get_queryset (the `order_by` clause only reorders the
result and is abstracted away; only which orders are returned is modelled). -/
def orderListQueryset (u : User) (orders : List Order) : List Order :=
  if u.isStaff = true ∨ u.role = "admin" ∨ u.role = "manager" then orders
  else if u.role = "vendor_admin" then orders.filter (fun o => o.vendorId = userVendorId u)
  else orders.filter (fun o => o.userId = u.id)

/-- OrderDetailView.get_queryset. -/
def orderDetailQueryset (u : User) (orders : List Order) : List Order :=
  if u.isStaff = true ∨ u.role = "admin" ∨ u.role = "manager" then orders
  else if u.role = "vendor_admin" then orders.filter (fun o => o.vendorId = userVendorId u)
  else orders.filter (fun o => o.userId = u.id)

/-- A shipping collaborator that always quotes 0 (used for concrete runs). -/
def zShip : Money → Address → Option Money := fun _ _ => some 0

/-- A tax collaborator that always charges 0 (used for concrete runs). -/
def zTax : Money → Address → Money := fun _ _ => 0

def addr0 : Address := { id := 0, isDefault := true }

/-- A default order value used with `List.headD`. -/
def dOrder : Order :=
  { userId := 0, vendorId := none, status := OrderStatus.pending, total := 0,
    discount := 0, tax := 0, shipping := 0, couponCode := none, items := [],
    trackingNumber := none, adminNote := none }

/-- Concrete catalog for the main success witness: product 1 is vendor 1's
at 10.00, product 2 is platform-sold at 5.00. -/
def prodsW : ProductId → Product :=
  fun pid => if pid = 2 then { name := "b", price := 5, vendorId := none }
             else { name := "a", price := 10, vendorId := some 1 }

/-- A coupon granting a flat 3.00 discount, valid for everyone. -/
def coupW : Coupon :=
  { code := "W", validFor := fun _ _ => (true, ""), calcDiscount := fun _ => 3 }

/-- The main success witness state: a two-vendor cart 2 x product 1 plus
1 x product 2 (subtotals 20.00 and 5.00), one coupon on file. -/
def stW : CheckoutState :=
  { products := prodsW
    stocks := fun _ => 2
    addresses := [addr0]
    cart := some { isActive := true, checkedOut := false,
                   items := [{ productId := 1, quantity := 2 }, { productId := 2, quantity := 1 }] }
    orders := []
    couponUsages := []
    coupons := [coupW] }

/-- Catalog for the C1 counterexample: a zero-priced product. -/
def prodsZero : ProductId → Product :=
  fun _ => { name := "z", price := 0, vendorId := some 1 }

/-- A coupon granting a flat 5.00 discount regardless of subtotal. -/
def coupFlat : Coupon :=
  { code := "FLAT", validFor := fun _ _ => (true, ""), calcDiscount := fun _ => 5 }

/-- C1 counterexample state: a non-empty cart with total subtotal 0 and a
coupon computing a positive discount. -/
def stZero : CheckoutState :=
  { products := prodsZero
    stocks := fun _ => 2
    addresses := [addr0]
    cart := some { isActive := true, checkedOut := false,
                   items := [{ productId := 1, quantity := 1 }] }
    orders := []
    couponUsages := []
    coupons := [coupFlat] }

/-- Catalog for the C3 counterexample: products 1-3 cost 0.15 for vendors
1-3, product 4 costs 0.05 for vendor 4. -/
def prodsR : ProductId → Product :=
  fun pid => if pid = 4 then { name := "p4", price := 1 / 20, vendorId := some 4 }
             else { name := "p", price := 3 / 20, vendorId := some pid }

/-- A coupon granting a flat 0.05 discount (10 percent of the 0.50 cart). -/
def coupR : Coupon :=
  { code := "TEN", validFor := fun _ _ => (true, ""), calcDiscount := fun _ => 1 / 20 }

/-- C3 counterexample state: four single-item vendor groups with subtotals
0.15, 0.15, 0.15 and 0.05; the three rounded shares are 0.02 each, so the
last group receives 0.05 - 0.06 = -0.01. -/
def stR : CheckoutState :=
  { products := prodsR
    stocks := fun _ => 9
    addresses := [addr0]
    cart := some { isActive := true, checkedOut := false,
                   items := [{ productId := 1, quantity := 1 }, { productId := 2, quantity := 1 },
                             { productId := 3, quantity := 1 }, { productId := 4, quantity := 1 }] }
    orders := []
    couponUsages := []
    coupons := [coupR] }

/-- State with no address on file (for the C7 witness). -/
def stNoAddr : CheckoutState :=
  { products := prodsW
    stocks := fun _ => 2
    addresses := []
    cart := some { isActive := true, checkedOut := false,
                   items := [{ productId := 1, quantity := 1 }] }
    orders := []
    couponUsages := []
    coupons := [] }

/-- A set-status collaborator that rejects every transition (concrete runs). -/
def noSetStatus : Order → String → Option Order := fun _ _ => none

/-- An order of vendor 2 used in the C9 scenarios. -/
def orderV2 : Order := { dOrder with vendorId := some 2 }

/-- Order table holding only `orderV2` at primary key 1. -/
def dbV2 : ℕ → Option Order := fun pk => if pk = 1 then some orderV2 else none

/-- A vendor_admin of the approved vendor 1. -/
def uApproved : User :=
  { id := 9, isAuthenticated := true, isStaff := false, isSuperuser := false,
    role := "vendor_admin", vendor := some { id := 1, status := "approved" } }

/-- A vendor_admin whose vendor 1 is still pending approval. -/
def uPending : User :=
  { id := 9, isAuthenticated := true, isStaff := false, isSuperuser := false,
    role := "vendor_admin", vendor := some { id := 1, status := "pending" } }

/-- A vendor_admin with no linked vendor (C10). -/
def uNoVendor : User :=
  { id := 9, isAuthenticated := true, isStaff := false, isSuperuser := false,
    role := "vendor_admin", vendor := none }

/-- A staff user whose role string is vendor_admin with no linked vendor
(C10 counterexample). -/
def uStaffVendorAdmin : User :=
  { id := 9, isAuthenticated := true, isStaff := true, isSuperuser := false,
    role := "vendor_admin", vendor := none }

/-- A small order table: one platform order and one vendor-1 order. -/
def ordersC10 : List Order :=
  [{ dOrder with userId := 3, vendorId := none },
   { dOrder with userId := 9, vendorId := some 1 }]

/-- Concatenation of the item lists of a list of vendor groups. -/
def flatItems (gs : List (Option VendorId × List CartItem)) : List CartItem :=
  match gs with
  | [] => []
  | g :: rest => g.2 ++ flatItems rest

theorem abs_rhe_sub_le (y : ℚ) : |(rhe y : ℚ) - y| ≤ 1 / 2 := by
  unfold rhe
  by_cases h : y - ⌊y⌋ = 1 / 2
  · rw [if_pos h]
    by_cases h2 : ⌊y⌋ % 2 = 0
    · rw [if_pos h2, abs_le]
      constructor <;> linarith [Int.floor_le y, Int.lt_floor_add_one y]
    · rw [if_neg h2]
      push_cast
      rw [abs_le]
      constructor <;> linarith
  · rw [if_neg h, abs_sub_comm]
    exact abs_sub_round y

theorem rhe_nonneg {y : ℚ} (hy : 0 ≤ y) : 0 ≤ rhe y := by
  unfold rhe
  have h0 : 0 ≤ ⌊y⌋ := Int.floor_nonneg.mpr hy
  by_cases h : y - ⌊y⌋ = 1 / 2
  · rw [if_pos h]
    split <;> omega
  · rw [if_neg h, round_eq]
    have : (0 : ℚ) ≤ y + 1 / 2 := by linarith
    exact Int.floor_nonneg.mpr this

theorem abs_quantize2_sub_le (x : ℚ) : |quantize2 x - x| ≤ 1 / 200 := by
  unfold quantize2
  have h := abs_rhe_sub_le (100 * x)
  have h100 : (rhe (100 * x) : ℚ) / 100 - x = ((rhe (100 * x) : ℚ) - 100 * x) / 100 := by
    ring
  rw [h100, abs_div]
  rw [show |(100 : ℚ)| = 100 by norm_num]
  have h0 := abs_nonneg ((rhe (100 * x) : ℚ) - 100 * x)
  linarith

theorem quantize2_nonneg {x : ℚ} (hx : 0 ≤ x) : 0 ≤ quantize2 x := by
  unfold quantize2
  have : (0 : ℚ) ≤ (rhe (100 * x) : ℚ) := by
    exact_mod_cast rhe_nonneg (by positivity)
  positivity

theorem quantize2_grid (x : ℚ) : ∃ m : ℤ, quantize2 x = (m : ℚ) / 100 :=
  ⟨rhe (100 * x), rfl⟩

theorem quantize2_le_grid {x d : ℚ} {m : ℤ} (hd : d = (m : ℚ) / 100) (hx : x ≤ d) :
    quantize2 x ≤ d := by
  obtain ⟨n, hn⟩ := quantize2_grid x
  have h1 : quantize2 x - x ≤ 1 / 200 := le_trans (le_abs_self _) (abs_quantize2_sub_le x)
  have h2 : (n : ℚ) / 100 ≤ (m : ℚ) / 100 + 1 / 200 := by
    rw [← hn, ← hd]; linarith
  have h3 : (n : ℚ) < (m : ℚ) + 1 := by linarith
  have h4 : n < m + 1 := by exact_mod_cast h3
  have h5 : (n : ℚ) ≤ (m : ℚ) := by exact_mod_cast Int.lt_add_one_iff.mp h4
  rw [hn, hd]
  linarith

theorem allocGo_single (d T rem : ℚ) (k : Option VendorId) (s : Money) :
    allocGo d T rem [(k, s)] = [(k, rem)] := rfl

theorem allocGo_cons_of_ne_nil (d T rem : ℚ) (g : Option VendorId × Money)
    (l : List (Option VendorId × Money)) (h : l ≠ []) :
    allocGo d T rem (g :: l) =
      (g.1, quantize2 (d * (g.2 / T))) ::
        allocGo d T (rem - quantize2 (d * (g.2 / T))) l := by
  obtain ⟨k, s⟩ := g
  cases l with
  | nil => exact absurd rfl h
  | cons g2 rest => rfl

theorem allocGo_map_fst (d T : ℚ) (l : List (Option VendorId × Money)) :
    ∀ rem, (allocGo d T rem l).map Prod.fst = l.map Prod.fst := by
  induction l with
  | nil => intro rem; rfl
  | cons g rest ih =>
      intro rem
      cases rest with
      | nil => obtain ⟨k, s⟩ := g; rfl
      | cons g2 rest2 =>
          rw [allocGo_cons_of_ne_nil d T rem g (g2 :: rest2) (by simp)]
          simp only [List.map_cons]
          rw [ih]
          simp

theorem allocGo_sum (d T : ℚ) (l : List (Option VendorId × Money)) (h : l ≠ []) :
    ∀ rem, ((allocGo d T rem l).map Prod.snd).sum = rem := by
  induction l with
  | nil => exact absurd rfl h
  | cons g rest ih =>
      intro rem
      cases rest with
      | nil => obtain ⟨k, s⟩ := g; simp [allocGo_single]
      | cons g2 rest2 =>
          rw [allocGo_cons_of_ne_nil d T rem g (g2 :: rest2) (by simp)]
          simp only [List.map_cons, List.sum_cons]
          rw [ih (by simp)]
          ring

theorem allocGo_append_last (d T : ℚ) (k : Option VendorId) (s : Money)
    (pre : List (Option VendorId × Money)) :
    ∀ rem, allocGo d T rem (pre ++ [(k, s)]) =
      pre.map (fun g => (g.1, quantize2 (d * (g.2 / T)))) ++
      [(k, rem - (pre.map (fun g => quantize2 (d * (g.2 / T)))).sum)] := by
  induction pre with
  | nil => intro rem; simp [allocGo_single]
  | cons g pre' ih =>
      intro rem
      rw [List.cons_append, allocGo_cons_of_ne_nil d T rem g (pre' ++ [(k, s)]) (by simp), ih]
      simp only [List.map_cons, List.sum_cons, List.cons_append, sub_sub]

theorem allocateDiscounts_pos {d T : ℚ} (h1 : 0 < d) (h2 : 0 < T)
    (subs : List (Option VendorId × Money)) :
    allocateDiscounts d subs T = allocGo d T d subs := by
  unfold allocateDiscounts
  rw [if_pos ⟨h1, h2⟩]

theorem allocateDiscounts_zero {d T : ℚ} (h : ¬(0 < d ∧ 0 < T))
    (subs : List (Option VendorId × Money)) :
    allocateDiscounts d subs T = subs.map (fun g => (g.1, (0 : ℚ))) := by
  unfold allocateDiscounts
  rw [if_neg h]

theorem allocateDiscounts_map_fst (d T : ℚ) (subs : List (Option VendorId × Money)) :
    (allocateDiscounts d subs T).map Prod.fst = subs.map Prod.fst := by
  by_cases h : 0 < d ∧ 0 < T
  · rw [allocateDiscounts_pos h.1 h.2, allocGo_map_fst]
  · rw [allocateDiscounts_zero h]
    simp

theorem allocateDiscounts_sum {d T : ℚ} (subs : List (Option VendorId × Money))
    (hne : subs ≠ []) (h : d = 0 ∨ (0 < d ∧ 0 < T)) :
    ((allocateDiscounts d subs T).map Prod.snd).sum = d := by
  rcases h with h | h
  · subst h
    rw [allocateDiscounts_zero (by intro hc; exact lt_irrefl 0 hc.1)]
    apply List.sum_eq_zero
    intro x hx
    simp only [List.map_map, List.mem_map] at hx
    obtain ⟨g, _, hg⟩ := hx
    exact hg.symm
  · rw [allocateDiscounts_pos h.1 h.2, allocGo_sum d T subs hne]

theorem allocGo_snd_le {d T : ℚ} {m : ℤ} (hd : d = (m : ℚ) / 100)
    (l : List (Option VendorId × Money))
    (hl : ∀ s ∈ l.map Prod.snd, 0 ≤ d * (s / T) ∧ d * (s / T) ≤ d) :
    ∀ rem, rem ≤ d → ∀ v ∈ (allocGo d T rem l).map Prod.snd, v ≤ d := by
  induction l with
  | nil => intro rem _ v hv; simp [allocGo] at hv
  | cons g rest ih =>
      intro rem hrem v hv
      have hg := hl g.2 (by simp)
      cases rest with
      | nil =>
          obtain ⟨k, s⟩ := g
          rw [allocGo_single] at hv
          simp at hv
          exact hv ▸ hrem
      | cons g2 rest2 =>
          rw [allocGo_cons_of_ne_nil d T rem g (g2 :: rest2) (by simp)] at hv
          simp only [List.map_cons, List.mem_cons] at hv
          rcases hv with hv | hv
          · exact hv ▸ quantize2_le_grid hd hg.2
          · have hq0 : 0 ≤ quantize2 (d * (g.2 / T)) := quantize2_nonneg hg.1
            exact ih (fun s hs => hl s (by rw [List.map_cons]; exact List.mem_cons_of_mem _ hs))
              (rem - quantize2 (d * (g.2 / T))) (by linarith) v hv

theorem allocateDiscounts_snd_le {d T : ℚ} {m : ℤ} (hd : d = (m : ℚ) / 100) (hd0 : 0 ≤ d)
    (subs : List (Option VendorId × Money)) (hsub : ∀ s ∈ subs.map Prod.snd, 0 ≤ s)
    (hT : T = (subs.map Prod.snd).sum) :
    ∀ v ∈ (allocateDiscounts d subs T).map Prod.snd, v ≤ d := by
  by_cases hpos : 0 < d ∧ 0 < T
  · rw [allocateDiscounts_pos hpos.1 hpos.2]
    apply allocGo_snd_le hd
    · intro s hs
      have hs0 : 0 ≤ s := hsub s hs
      have hsT : s ≤ T := hT ▸ List.single_le_sum hsub s hs
      refine ⟨mul_nonneg hd0 (div_nonneg hs0 hpos.2.le), ?_⟩
      have h1 : s / T ≤ 1 := (div_le_one hpos.2).mpr hsT
      calc d * (s / T) ≤ d * 1 := mul_le_mul_of_nonneg_left h1 hd0
        _ = d := mul_one d
    · exact le_refl d
  · rw [allocateDiscounts_zero hpos]
    intro v hv
    simp only [List.map_map, List.mem_map] at hv
    obtain ⟨g, _, hg⟩ := hv
    exact hg ▸ hd0

theorem flatItems_cons (g : Option VendorId × List CartItem)
    (gs : List (Option VendorId × List CartItem)) :
    flatItems (g :: gs) = g.2 ++ flatItems gs := rfl

theorem insertItem_map_fst_of_mem {gs : List (Option VendorId × List CartItem)}
    {k : Option VendorId} (h : k ∈ gs.map Prod.fst) (it : CartItem) :
    (insertItem gs k it).map Prod.fst = gs.map Prod.fst := by
  induction gs with
  | nil => simp at h
  | cons g rest ih =>
      obtain ⟨k', its⟩ := g
      by_cases hk : k' = k
      · simp [insertItem, hk]
      · simp only [List.map_cons, List.mem_cons] at h
        rcases h with h1 | h1
        · exact absurd h1.symm hk
        · simp [insertItem, hk, ih h1]

theorem insertItem_map_fst_of_not_mem {gs : List (Option VendorId × List CartItem)}
    {k : Option VendorId} (h : k ∉ gs.map Prod.fst) (it : CartItem) :
    (insertItem gs k it).map Prod.fst = gs.map Prod.fst ++ [k] := by
  induction gs with
  | nil => simp [insertItem]
  | cons g rest ih =>
      obtain ⟨k', its⟩ := g
      simp only [List.map_cons, List.mem_cons] at h
      push_neg at h
      have hk : ¬ k' = k := fun he => h.1 he.symm
      simp [insertItem, hk, ih h.2]

theorem insertItem_mem_fst (gs : List (Option VendorId × List CartItem))
    (k : Option VendorId) (it : CartItem) (x : Option VendorId) :
    x ∈ (insertItem gs k it).map Prod.fst ↔ x ∈ gs.map Prod.fst ∨ x = k := by
  by_cases h : k ∈ gs.map Prod.fst
  · rw [insertItem_map_fst_of_mem h]
    exact ⟨Or.inl, fun hx => hx.elim id (fun he => he ▸ h)⟩
  · rw [insertItem_map_fst_of_not_mem h]
    simp

theorem insertItem_flat (gs : List (Option VendorId × List CartItem))
    (k : Option VendorId) (it : CartItem) :
    List.Perm (flatItems (insertItem gs k it)) (it :: flatItems gs) := by
  induction gs with
  | nil => simp [insertItem, flatItems]
  | cons g rest ih =>
      obtain ⟨k', its⟩ := g
      by_cases hk : k' = k
      · simp only [insertItem, if_pos hk, flatItems_cons]
        have h1 : List.Perm (its ++ [it]) ([it] ++ its) := List.perm_append_comm
        have h2 := h1.append_right (flatItems rest)
        simp only [List.append_assoc, List.singleton_append, List.cons_append] at h2 ⊢
        exact h2
      · simp only [insertItem, if_neg hk, flatItems_cons]
        exact (ih.append_left its).trans List.perm_middle

theorem groupFold_flat (ps : ProductId → Product) :
    ∀ (l : List CartItem) (gs : List (Option VendorId × List CartItem)),
      List.Perm
        (flatItems (l.foldl (fun gs it => insertItem gs (ps it.productId).vendorId it) gs))
        (flatItems gs ++ l) := by
  intro l
  induction l with
  | nil => intro gs; simp
  | cons h t ih =>
      intro gs
      rw [List.foldl_cons]
      have h1 := ih (insertItem gs (ps h.productId).vendorId h)
      have h2 := (insertItem_flat gs (ps h.productId).vendorId h).append_right t
      exact h1.trans (h2.trans List.perm_middle.symm)

theorem groupByVendor_flat (ps : ProductId → Product) (l : List CartItem) :
    List.Perm (flatItems (groupByVendor ps l)) l := by
  have h := groupFold_flat ps l []
  simpa [groupByVendor, flatItems] using h

theorem groupFold_keys_nodup (ps : ProductId → Product) :
    ∀ (l : List CartItem) (gs : List (Option VendorId × List CartItem)),
      (gs.map Prod.fst).Nodup →
      (((l.foldl (fun gs it => insertItem gs (ps it.productId).vendorId it) gs)).map
        Prod.fst).Nodup := by
  intro l
  induction l with
  | nil => intro gs h; exact h
  | cons h t ih =>
      intro gs hnd
      rw [List.foldl_cons]
      apply ih
      by_cases hm : (ps h.productId).vendorId ∈ gs.map Prod.fst
      · rw [insertItem_map_fst_of_mem hm]; exact hnd
      · rw [insertItem_map_fst_of_not_mem hm]
        rw [List.nodup_append]
        exact ⟨hnd, List.nodup_singleton _, fun x hx hx' => hm ((List.mem_singleton.mp hx') ▸ hx)⟩

theorem groupByVendor_keys_nodup (ps : ProductId → Product) (l : List CartItem) :
    ((groupByVendor ps l).map Prod.fst).Nodup :=
  groupFold_keys_nodup ps l [] (by simp)

theorem groupFold_keys_mem (ps : ProductId → Product) :
    ∀ (l : List CartItem) (gs : List (Option VendorId × List CartItem)) (x : Option VendorId),
      x ∈ ((l.foldl (fun gs it => insertItem gs (ps it.productId).vendorId it) gs)).map Prod.fst ↔
        x ∈ gs.map Prod.fst ∨ x ∈ l.map (fun it => (ps it.productId).vendorId) := by
  intro l
  induction l with
  | nil => intro gs x; simp
  | cons h t ih =>
      intro gs x
      rw [List.foldl_cons, ih, insertItem_mem_fst]
      simp only [List.map_cons, List.mem_cons]
      tauto

theorem groupByVendor_keys_mem (ps : ProductId → Product) (l : List CartItem)
    (x : Option VendorId) :
    x ∈ (groupByVendor ps l).map Prod.fst ↔
      x ∈ l.map (fun it => (ps it.productId).vendorId) := by
  rw [groupByVendor, groupFold_keys_mem]
  simp

theorem groupByVendor_length (ps : ProductId → Product) (l : List CartItem) :
    (groupByVendor ps l).length =
      (l.map (fun it => (ps it.productId).vendorId)).dedup.length := by
  have hnd := groupByVendor_keys_nodup ps l
  have hperm : List.Perm ((groupByVendor ps l).map Prod.fst)
      ((l.map (fun it => (ps it.productId).vendorId)).dedup) := by
    apply List.perm_of_nodup_nodup_toFinset_eq hnd (List.nodup_dedup _)
    ext x
    rw [List.mem_toFinset, List.mem_toFinset, groupByVendor_keys_mem, List.mem_dedup]
  calc (groupByVendor ps l).length
      = ((groupByVendor ps l).map Prod.fst).length := (List.length_map _ _).symm
    _ = _ := hperm.length_eq

theorem groupByVendor_ne_nil (ps : ProductId → Product) {l : List CartItem} (h : l ≠ []) :
    groupByVendor ps l ≠ [] := by
  intro hc
  have hp := groupByVendor_flat ps l
  rw [hc] at hp
  have hnil : List.Perm ([] : List CartItem) l := hp
  exact h hnil.nil_eq.symm

theorem itemsSubtotal_append (ps : ProductId → Product) (l1 l2 : List CartItem) :
    itemsSubtotal ps (l1 ++ l2) = itemsSubtotal ps l1 + itemsSubtotal ps l2 := by
  simp [itemsSubtotal]

theorem itemsSubtotal_perm (ps : ProductId → Product) {l1 l2 : List CartItem}
    (h : List.Perm l1 l2) :
    itemsSubtotal ps l1 = itemsSubtotal ps l2 :=
  List.Perm.sum_eq (h.map _)

theorem groups_subs_sum (ps : ProductId → Product)
    (gs : List (Option VendorId × List CartItem)) :
    ((gs.map (fun g => (g.1, itemsSubtotal ps g.2))).map Prod.snd).sum =
      itemsSubtotal ps (flatItems gs) := by
  induction gs with
  | nil => simp [flatItems, itemsSubtotal]
  | cons g rest ih =>
      simp only [List.map_cons, List.sum_cons, flatItems_cons, itemsSubtotal_append]
      rw [ih]

theorem groupByVendor_subs_sum (ps : ProductId → Product) (l : List CartItem) :
    (((groupByVendor ps l).map (fun g => (g.1, itemsSubtotal ps g.2))).map Prod.snd).sum =
      itemsSubtotal ps l :=
  (groups_subs_sum ps _).trans (itemsSubtotal_perm ps (groupByVendor_flat ps l))

theorem lookupAlloc_cons (k : Option VendorId) (v : Money)
    (l : List (Option VendorId × Money)) (k' : Option VendorId) :
    lookupAlloc ((k, v) :: l) k' = if k = k' then v else lookupAlloc l k' := by
  unfold lookupAlloc
  by_cases h : k = k'
  · simp [List.find?_cons, h]
  · simp [List.find?_cons, h]

theorem lookupAlloc_map_graph {gs : List (Option VendorId × List CartItem)}
    (f : Option VendorId × List CartItem → Money) (hnd : (gs.map Prod.fst).Nodup) :
    ∀ g ∈ gs, lookupAlloc (gs.map (fun x => (x.1, f x))) g.1 = f g := by
  induction gs with
  | nil => intro g hg; simp at hg
  | cons g0 rest ih =>
      intro g hg
      simp only [List.map_cons] at hnd ⊢
      have hk : g0.1 ∉ rest.map Prod.fst := (List.nodup_cons.mp hnd).1
      rcases List.mem_cons.mp hg with rfl | hg'
      · rw [lookupAlloc_cons, if_pos rfl]
      · have hne : g0.1 ≠ g.1 := fun he => hk (by rw [he]; exact List.mem_map.mpr ⟨g, hg', rfl⟩)
        rw [lookupAlloc_cons, if_neg hne]
        exact ih (List.nodup_cons.mp hnd).2 g hg'

theorem map_lookup_eq_snd :
    ∀ (l : List (Option VendorId × Money)), (l.map Prod.fst).Nodup →
      (l.map Prod.fst).map (lookupAlloc l) = l.map Prod.snd := by
  intro l
  induction l with
  | nil => intro _; rfl
  | cons g rest ih =>
      intro hnd
      obtain ⟨k, v⟩ := g
      simp only [List.map_cons] at hnd ⊢
      have hk : k ∉ rest.map Prod.fst := (List.nodup_cons.mp hnd).1
      have hrest := (List.nodup_cons.mp hnd).2
      congr 1
      · rw [lookupAlloc_cons, if_pos rfl]
      · have hcong : ∀ x ∈ rest.map Prod.fst,
            lookupAlloc ((k, v) :: rest) x = lookupAlloc rest x := by
          intro x hx
          rw [lookupAlloc_cons, if_neg (fun he => hk (by rw [he]; exact hx))]
        rw [List.map_congr_left hcong, ih hrest]

theorem lookupAlloc_mem_snd_or_zero (l : List (Option VendorId × Money))
    (k : Option VendorId) :
    lookupAlloc l k ∈ l.map Prod.snd ∨ lookupAlloc l k = 0 := by
  unfold lookupAlloc
  cases hf : l.find? (fun a => a.1 = k) with
  | none => right; rfl
  | some a => left; exact List.mem_map.mpr ⟨a, List.mem_of_find?_eq_some hf, rfl⟩

theorem applyStocks_cons (it : CartItem) (rest : List CartItem) (stocks : ProductId → ℤ) :
    applyStocks (it :: rest) stocks =
      applyStocks rest
        (fun pid => if pid = it.productId then max (stocks pid - (it.quantity : ℤ)) 0
                    else stocks pid) := rfl

theorem applyStocks_append (l1 l2 : List CartItem) :
    ∀ stocks, applyStocks (l1 ++ l2) stocks = applyStocks l2 (applyStocks l1 stocks) := by
  induction l1 with
  | nil => intro stocks; rfl
  | cons it rest ih =>
      intro stocks
      rw [List.cons_append, applyStocks_cons, applyStocks_cons, ih]

theorem applyStocks_apply (pid : ProductId) :
    ∀ (l : List CartItem) (stocks : ProductId → ℤ), 0 ≤ stocks pid →
      applyStocks l stocks pid =
        max (stocks pid -
          ((l.filter (fun it => it.productId = pid)).map (fun it => (it.quantity : ℤ))).sum) 0 := by
  intro l
  induction l with
  | nil =>
      intro stocks h
      simp only [applyStocks, List.filter_nil, List.map_nil, List.sum_nil, sub_zero]
      omega
  | cons it rest ih =>
      intro stocks h
      rw [applyStocks_cons]
      have hq : (0 : ℤ) ≤ (it.quantity : ℤ) := Int.natCast_nonneg _
      have hrest : (0 : ℤ) ≤
          ((rest.filter (fun it => it.productId = pid)).map (fun it => (it.quantity : ℤ))).sum :=
        List.sum_nonneg (by
          intro x hx
          simp only [List.mem_map] at hx
          obtain ⟨y, _, hy⟩ := hx
          exact hy ▸ Int.natCast_nonneg _)
      by_cases hp : it.productId = pid
      · rw [ih _ (by rw [if_pos hp.symm]; exact le_max_right _ _)]
        rw [if_pos hp.symm]
        rw [List.filter_cons_of_pos (by simp [hp]), List.map_cons, List.sum_cons]
        rw [max_def, max_def, max_def]
        split_ifs <;> omega
      · have hne : ¬ pid = it.productId := fun he => hp he.symm
        rw [ih _ (by rw [if_neg hne]; exact h)]
        rw [if_neg hne]
        rw [List.filter_cons_of_neg (by simp [hp])]

theorem materialize_fst (ship : Money → Address → Option Money)
    (tax : Money → Address → Money) (uid : UserId) (addr : Address) (cc : Option String)
    (ps : ProductId → Product) (subs allocs : List (Option VendorId × Money)) :
    ∀ (gs : List (Option VendorId × List CartItem)) (stocks : ProductId → ℤ),
      (materialize ship tax uid addr cc ps subs allocs gs stocks).1 =
        gs.map (mkOrderFor ship tax uid addr cc ps subs allocs) := by
  intro gs
  induction gs with
  | nil => intro stocks; rfl
  | cons g rest ih =>
      intro stocks
      simp only [materialize, List.map_cons]
      rw [ih]

theorem materialize_stocks (ship : Money → Address → Option Money)
    (tax : Money → Address → Money) (uid : UserId) (addr : Address) (cc : Option String)
    (ps : ProductId → Product) (subs allocs : List (Option VendorId × Money)) :
    ∀ (gs : List (Option VendorId × List CartItem)) (stocks : ProductId → ℤ),
      (materialize ship tax uid addr cc ps subs allocs gs stocks).2.1 =
        applyStocks (flatItems gs) stocks := by
  intro gs
  induction gs with
  | nil => intro stocks; rfl
  | cons g rest ih =>
      intro stocks
      simp only [materialize, flatItems_cons]
      rw [ih, applyStocks_append]

theorem materialize_warn (ship : Money → Address → Option Money)
    (tax : Money → Address → Money) (uid : UserId) (addr : Address) (cc : Option String)
    (ps : ProductId → Product) (subs allocs : List (Option VendorId × Money)) :
    ∀ (gs : List (Option VendorId × List CartItem)) (stocks : ProductId → ℤ),
      (materialize ship tax uid addr cc ps subs allocs gs stocks).2.2 =
        gs.any (fun g => (ship (lookupAlloc subs g.1) addr).isNone) := by
  intro gs
  induction gs with
  | nil => intro stocks; rfl
  | cons g rest ih =>
      intro stocks
      simp only [materialize, List.any_cons]
      rw [ih]

theorem resolveCoupon_none_eq (coupons : List Coupon) (uid : UserId) (T : Money) :
    resolveCouponAndDiscount coupons uid none T = Except.ok (none, 0) := rfl

theorem resolveCoupon_some_eq (coupons : List Coupon) (uid : UserId) (code : String)
    (T : Money) :
    resolveCouponAndDiscount coupons uid (some code) T =
      (match coupons.find? (fun c => c.code = code) with
       | none => Except.error CheckoutError.invalidCouponCode
       | some c =>
           if (c.validFor uid T).1 = true then Except.ok (some c, c.calcDiscount T)
           else Except.error (CheckoutError.couponInvalid (c.validFor uid T).2)) := rfl

theorem resolveCoupon_ok_cases {coupons : List Coupon} {uid : UserId} {cc : Option String}
    {T : Money} {cd : Option Coupon × Money}
    (h : resolveCouponAndDiscount coupons uid cc T = Except.ok cd) :
    (cc = none ∧ cd = (none, 0)) ∨
    (∃ code c, cc = some code ∧ coupons.find? (fun x => x.code = code) = some c ∧
      (c.validFor uid T).1 = true ∧ cd = (some c, c.calcDiscount T)) := by
  cases cc with
  | none =>
      rw [resolveCoupon_none_eq] at h
      injection h with h1
      exact Or.inl ⟨rfl, h1.symm⟩
  | some code =>
      rw [resolveCoupon_some_eq] at h
      right
      split at h
      · exact Except.noConfusion h
      · rename_i c hf
        split at h
        · rename_i hv
          injection h with h1
          exact ⟨code, c, rfl, hf, hv, h1.symm⟩
        · exact Except.noConfusion h

theorem resolveCoupon_error_iff {coupons : List Coupon} {uid : UserId} {cc : Option String}
    {T : Money} :
    (∃ e, resolveCouponAndDiscount coupons uid cc T = Except.error e) ↔
    (∃ code, cc = some code ∧
      (coupons.find? (fun c => c.code = code) = none ∨
       ∃ c, coupons.find? (fun c => c.code = code) = some c ∧ (c.validFor uid T).1 = false)) := by
  constructor
  · rintro ⟨e, he⟩
    cases cc with
    | none => rw [resolveCoupon_none_eq] at he; exact Except.noConfusion he
    | some code =>
        rw [resolveCoupon_some_eq] at he
        refine ⟨code, rfl, ?_⟩
        split at he
        · exact Or.inl (by assumption)
        · rename_i c hf
          split at he
          · exact Except.noConfusion he
          · rename_i hv
            exact Or.inr ⟨c, hf, Bool.not_eq_true _ ▸ hv⟩
  · rintro ⟨code, rfl, hor⟩
    rcases hor with hn | ⟨c, hcf, hv⟩
    · exact ⟨CheckoutError.invalidCouponCode, by rw [resolveCoupon_some_eq, hn]⟩
    · refine ⟨CheckoutError.couponInvalid (c.validFor uid T).2, ?_⟩
      have hsome : resolveCouponAndDiscount coupons uid (some code) T =
          if (c.validFor uid T).1 = true then Except.ok (some c, c.calcDiscount T)
          else Except.error (CheckoutError.couponInvalid (c.validFor uid T).2) := by
        rw [resolveCoupon_some_eq, hcf]
      rw [hsome, if_neg (by rw [hv]; exact Bool.false_ne_true)]

theorem subsSum_eq_cartSubtotal {st : CheckoutState} {cart : Cart} (hC : st.cart = some cart) :
    (((groupByVendor st.products cart.items).map
      (fun g => (g.1, itemsSubtotal st.products g.2))).map Prod.snd).sum = cartSubtotalOf st := by
  rw [groupByVendor_subs_sum]
  unfold cartSubtotalOf cartItemsOf
  rw [hC]

theorem checkout_cases (ship : Money → Address → Option Money)
    (tax : Money → Address → Money) (uid : UserId) (cc : Option String) (st : CheckoutState) :
    (∃ e, checkout ship tax uid cc st = (Except.error e, st)) ∨
    (∃ addr cart cd,
      resolveAddress st.addresses = some addr ∧
      st.cart = some cart ∧
      cart.isActive = true ∧
      cart.items ≠ [] ∧
      resolveCouponAndDiscount st.coupons uid cc
        (((groupByVendor st.products cart.items).map
            (fun g => (g.1, itemsSubtotal st.products g.2))).map Prod.snd).sum =
        Except.ok cd ∧
      checkout ship tax uid cc st =
        (Except.ok (checkoutCore ship tax uid addr cart
            (groupByVendor st.products cart.items)
            ((groupByVendor st.products cart.items).map
              (fun g => (g.1, itemsSubtotal st.products g.2)))
            (((groupByVendor st.products cart.items).map
              (fun g => (g.1, itemsSubtotal st.products g.2))).map Prod.snd).sum
            cd.1 cd.2 st).1,
         (checkoutCore ship tax uid addr cart
            (groupByVendor st.products cart.items)
            ((groupByVendor st.products cart.items).map
              (fun g => (g.1, itemsSubtotal st.products g.2)))
            (((groupByVendor st.products cart.items).map
              (fun g => (g.1, itemsSubtotal st.products g.2))).map Prod.snd).sum
            cd.1 cd.2 st).2)) := by
  unfold checkout
  split
  · exact Or.inl ⟨_, rfl⟩
  · rename_i addr heqA
    split
    · exact Or.inl ⟨_, rfl⟩
    · rename_i cart heqC
      split
      · exact Or.inl ⟨_, rfl⟩
      · rename_i hAct
        split
        · exact Or.inl ⟨_, rfl⟩
        · rename_i hIt
          dsimp only
          split
          · exact Or.inl ⟨_, rfl⟩
          · rename_i cd heqR
            exact Or.inr ⟨addr, cart, cd, heqA, heqC, by simpa using hAct, hIt, heqR, rfl⟩

theorem checkoutDiscountOf_none_eq (st : CheckoutState) : checkoutDiscountOf st none = 0 := rfl

theorem checkoutDiscountOf_some_eq (st : CheckoutState) (code : String) :
    checkoutDiscountOf st (some code) =
      (match st.coupons.find? (fun c => c.code = code) with
       | none => 0
       | some c => c.calcDiscount (cartSubtotalOf st)) := rfl

theorem resolveCoupon_ok_discount_eq {st : CheckoutState} {cd : Option Coupon × Money}
    {uid : UserId} {cc : Option String}
    (hR : resolveCouponAndDiscount st.coupons uid cc (cartSubtotalOf st) = Except.ok cd) :
    cd.2 = checkoutDiscountOf st cc := by
  rcases resolveCoupon_ok_cases hR with ⟨rfl, rfl⟩ | ⟨code, c, rfl, hf, hv, rfl⟩
  · rfl
  · rw [checkoutDiscountOf_some_eq, hf]

theorem checkout_ok_struct {ship : Money → Address → Option Money}
    {tax : Money → Address → Money} {uid : UserId} {cc : Option String} {st : CheckoutState}
    (h : isOkB (checkout ship tax uid cc st).1 = true) :
    ∃ addr cart cd,
      resolveAddress st.addresses = some addr ∧
      st.cart = some cart ∧
      cart.isActive = true ∧
      cart.items ≠ [] ∧
      resolveCouponAndDiscount st.coupons uid cc (cartSubtotalOf st) = Except.ok cd ∧
      checkoutOrders (checkout ship tax uid cc st).1 =
        (groupByVendor st.products cart.items).map
          (mkOrderFor ship tax uid addr (cd.1.map (fun c => c.code)) st.products
            ((groupByVendor st.products cart.items).map
              (fun g => (g.1, itemsSubtotal st.products g.2)))
            (allocateDiscounts cd.2
              ((groupByVendor st.products cart.items).map
                (fun g => (g.1, itemsSubtotal st.products g.2)))
              (((groupByVendor st.products cart.items).map
                (fun g => (g.1, itemsSubtotal st.products g.2))).map Prod.snd).sum)) ∧
      (checkout ship tax uid cc st).2.stocks =
        applyStocks (flatItems (groupByVendor st.products cart.items)) st.stocks ∧
      (checkout ship tax uid cc st).2.cart = some { cart with items := [], checkedOut := true } ∧
      (checkout ship tax uid cc st).2.addresses = st.addresses ∧
      (checkout ship tax uid cc st).2.orders =
        st.orders ++ checkoutOrders (checkout ship tax uid cc st).1 ∧
      (checkout ship tax uid cc st).2.couponUsages =
        (match cd.1, checkoutOrders (checkout ship tax uid cc st).1 with
         | some c, o :: _ =>
             st.couponUsages ++ [{ couponCode := c.code, userId := uid, order := o }]
         | _, _ => st.couponUsages) ∧
      (checkout ship tax uid cc st).2.products = st.products ∧
      (checkout ship tax uid cc st).2.coupons = st.coupons := by
  rcases checkout_cases ship tax uid cc st with ⟨e, heq⟩ | h2
  · rw [heq] at h
    exact absurd h (by simp [isOkB])
  · obtain ⟨addr, cart, cd, hA, hC, hAct, hIt, hR, hEq⟩ := h2
    rw [subsSum_eq_cartSubtotal hC] at hR
    refine ⟨addr, cart, cd, hA, hC, hAct, hIt, hR, ?_, ?_, ?_, ?_, ?_, ?_, ?_, ?_⟩
    · rw [hEq]
      exact materialize_fst ship tax uid addr (cd.1.map (fun c => c.code)) st.products _ _ _ _
    · rw [hEq]
      exact materialize_stocks ship tax uid addr (cd.1.map (fun c => c.code)) st.products _ _ _ _
    · rw [hEq]; rfl
    · rw [hEq]; rfl
    · rw [hEq]; rfl
    · rw [hEq]; rfl
    · rw [hEq]; rfl
    · rw [hEq]; rfl

/-- C1 counterexample: with a non-empty cart whose total subtotal is 0 (a
zero-priced product) and a coupon whose formula yields the flat discount
5.00, the checkout succeeds but allocates 0 to the single vendor group, so
the sum of allocated discounts (0) differs from the total computed coupon
discount (5). -/
theorem C1_counterexample :
    isOkB (checkout zShip zTax 0 (some "FLAT") stZero).1 = true ∧
    ((checkoutOrders (checkout zShip zTax 0 (some "FLAT") stZero).1).map
      (fun o => o.discount)).sum = 0 ∧
    checkoutDiscountOf stZero (some "FLAT") = 5 ∧
    (0 : ℚ) ≠ 5 := by
  refine ⟨by decide, ?_, by decide, by norm_num⟩
  simp only [checkout, stZero, resolveAddress, prodsZero, coupFlat, groupByVendor, insertItem,
    itemsSubtotal, allocateDiscounts, allocGo, lookupAlloc, materialize, mkOrderFor, mkOrderItem,
    applyStocks, checkoutCore, resolveCouponAndDiscount, checkoutOrders, zShip, zTax, addr0,
    List.foldl, List.filter, List.head?, List.find?, List.map, List.sum, List.any]
  norm_num

/-- C1 (amended): for every successful checkout, the sum of the per-order
allocated discounts equals the total computed coupon discount, provided the
computed discount is 0 (in particular when no coupon is applied) or the
discount and the total cart subtotal are both positive. -/
theorem C1_discount_sum_amended (ship : Money → Address → Option Money)
    (tax : Money → Address → Money) (uid : UserId) (cc : Option String) (st : CheckoutState)
    (h : isOkB (checkout ship tax uid cc st).1 = true)
    (hd : checkoutDiscountOf st cc = 0 ∨
      (0 < checkoutDiscountOf st cc ∧ 0 < cartSubtotalOf st)) :
    ((checkoutOrders (checkout ship tax uid cc st).1).map (fun o => o.discount)).sum =
      checkoutDiscountOf st cc := by
  obtain ⟨addr, cart, cd, hA, hC, hAct, hIt, hR, hOrd, _⟩ := checkout_ok_struct h
  have hcd : cd.2 = checkoutDiscountOf st cc := resolveCoupon_ok_discount_eq hR
  rw [hOrd]
  set groups := groupByVendor st.products cart.items with hg
  set subs := groups.map (fun g => (g.1, itemsSubtotal st.products g.2)) with hs
  set T := (subs.map Prod.snd).sum with hT
  set allocs := allocateDiscounts cd.2 subs T with hal
  have h1 : (groups.map (mkOrderFor ship tax uid addr (cd.1.map (fun c => c.code))
        st.products subs allocs)).map (fun o => o.discount) =
      (groups.map Prod.fst).map (lookupAlloc allocs) := by
    rw [List.map_map, List.map_map]
    rfl
  rw [h1]
  have hkeys : allocs.map Prod.fst = groups.map Prod.fst := by
    rw [hal, allocateDiscounts_map_fst, hs, List.map_map]
    rfl
  have hnd : (groups.map Prod.fst).Nodup := groupByVendor_keys_nodup _ _
  have hnd' : (allocs.map Prod.fst).Nodup := by rw [hkeys]; exact hnd
  rw [← hkeys, map_lookup_eq_snd allocs hnd']
  have hgne : groups ≠ [] := groupByVendor_ne_nil st.products hIt
  have hsne : subs ≠ [] := by
    rw [hs]
    intro hnil
    exact hgne (List.map_eq_nil_iff.mp hnil)
  have hTeq : T = cartSubtotalOf st := by
    rw [hT, hs, hg]
    exact subsSum_eq_cartSubtotal hC
  rw [hal, allocateDiscounts_sum subs hsne ?_, hcd]
  rcases hd with hd | hd
  · exact Or.inl (by rw [hcd]; exact hd)
  · exact Or.inr ⟨by rw [hcd]; exact hd.1, by rw [hTeq]; exact hd.2⟩

/-- Witness for C1: on the two-vendor state `stW` with the 3.00 coupon, the
order discounts (2.40 and 0.60) sum to the computed discount 3.00. -/
theorem C1_witness :
    ((checkoutOrders (checkout zShip zTax 7 (some "W") stW).1).map
      (fun o => o.discount)).sum = checkoutDiscountOf stW (some "W") :=
  C1_discount_sum_amended zShip zTax 7 (some "W") stW (by decide)
    (Or.inr ⟨by decide, by
      simp only [cartSubtotalOf, cartItemsOf, stW, prodsW, itemsSubtotal, List.map, List.sum]
      norm_num⟩)

/-- C2: with discount and total subtotal positive, the allocator maps every
group except the last to the 2-decimal rounding of
discount * (subtotal / total) and gives the last group in iteration order the
discount minus the sum already allocated; when discount or total subtotal is
0 every allocation is 0; and quantize2 is a rounding to 2 decimal places
within half a cent of its argument (ROUND_HALF_EVEN, an admissible
"half-up or equivalent" nearest-cent rounding). -/
theorem C2_allocator_spec :
    (∀ (d T : ℚ) (pre : List (Option VendorId × Money)) (k : Option VendorId) (s : Money),
      0 < d → 0 < T →
      allocateDiscounts d (pre ++ [(k, s)]) T =
        pre.map (fun g => (g.1, quantize2 (d * (g.2 / T)))) ++
        [(k, d - (pre.map (fun g => quantize2 (d * (g.2 / T)))).sum)]) ∧
    (∀ (d T : ℚ) (subs : List (Option VendorId × Money)),
      (d = 0 ∨ T = 0) → allocateDiscounts d subs T = subs.map (fun g => (g.1, (0 : ℚ)))) ∧
    (∀ x : ℚ, |quantize2 x - x| ≤ 1 / 200 ∧ ∃ m : ℤ, quantize2 x = (m : ℚ) / 100) := by
  refine ⟨?_, ?_, ?_⟩
  · intro d T pre k s hd hT
    rw [allocateDiscounts_pos hd hT, allocGo_append_last]
  · intro d T subs h
    apply allocateDiscounts_zero
    rintro ⟨h1, h2⟩
    rcases h with rfl | rfl
    · exact lt_irrefl 0 h1
    · exact lt_irrefl 0 h2
  · intro x
    exact ⟨abs_quantize2_sub_le x, quantize2_grid x⟩

/-- Witness for C2: allocating 3.00 across subtotals 20.00 and 5.00 (total
25.00) gives 2.40 to the first group and the remainder 0.60 to the last. -/
theorem C2_witness :
    allocateDiscounts 3 [(some 1, 20), (none, 5)] 25 = [(some 1, 12 / 5), (none, 3 / 5)] := by
  have h := C2_allocator_spec.1 3 25 [(some 1, 20)] none 5 (by norm_num) (by norm_num)
  refine h.trans ?_
  simp only [List.map, List.sum, quantize2, rhe, round_eq]
  norm_num [Int.floor_eq_iff]

theorem orderItemsSubtotal_mkOrderFor (ship : Money → Address → Option Money)
    (tax : Money → Address → Money) (uid : UserId) (addr : Address) (cc : Option String)
    (ps : ProductId → Product) (subs allocs : List (Option VendorId × Money))
    (g : Option VendorId × List CartItem) :
    orderItemsSubtotal (mkOrderFor ship tax uid addr cc ps subs allocs g) =
      itemsSubtotal ps g.2 := by
  unfold orderItemsSubtotal mkOrderFor itemsSubtotal
  rw [List.map_map]
  rfl

theorem itemsSubtotal_nonneg (ps : ProductId → Product) (l : List CartItem)
    (hp : ∀ pid, 0 ≤ (ps pid).price) : 0 ≤ itemsSubtotal ps l := by
  apply List.sum_nonneg
  intro x hx
  obtain ⟨it, _, rfl⟩ := List.mem_map.mp hx
  exact mul_nonneg (hp _) (Nat.cast_nonneg _)

/-- C3 counterexample: four vendor groups with subtotals 0.15, 0.15, 0.15,
0.05 and a 0.05 coupon discount; the first three shares 0.015 each round to
0.02, so the last group's allocated discount is 0.05 - 0.06 = -0.01,
a negative monetary field on the created order. -/
theorem C3_counterexample :
    (checkoutOrders (checkout zShip zTax 0 (some "TEN") stR).1).map (fun o => o.discount) =
      [1 / 50, 1 / 50, 1 / 50, -(1 / 100)] ∧
    (-(1 / 100) : ℚ) < 0 := by
  constructor
  · simp only [checkout, stR, resolveAddress, prodsR, coupR, groupByVendor, insertItem,
      itemsSubtotal, allocateDiscounts, allocGo, lookupAlloc, materialize, mkOrderFor, mkOrderItem,
      applyStocks, checkoutCore, resolveCouponAndDiscount, checkoutOrders, zShip, zTax, addr0,
      quantize2, rhe, round_eq,
      List.foldl, List.filter, List.head?, List.find?, List.map, List.sum, List.any]
    norm_num [Int.floor_eq_iff]
  · norm_num

/-- C3 (amended): every order created by a successful checkout satisfies
total = subtotal of its items + shipping + tax - discount; its subtotal,
shipping and tax are non-negative (prices and the pricing collaborators
being non-negative); and its discount never exceeds the total coupon
discount when that discount is a non-negative whole number of cents.  The
per-order discount itself (and hence the total) can be negative by rounding,
as the counterexample shows. -/
theorem C3_order_invariants_amended (ship : Money → Address → Option Money)
    (tax : Money → Address → Money) (uid : UserId) (cc : Option String) (st : CheckoutState)
    (h : isOkB (checkout ship tax uid cc st).1 = true)
    (hprice : ∀ pid, 0 ≤ (st.products pid).price)
    (hship : ∀ s a v, ship s a = some v → 0 ≤ v)
    (htax : ∀ s a, 0 ≤ tax s a)
    (hd0 : 0 ≤ checkoutDiscountOf st cc)
    (hdg : ∃ m : ℤ, checkoutDiscountOf st cc = (m : ℚ) / 100) :
    ∀ o ∈ checkoutOrders (checkout ship tax uid cc st).1,
      o.total = orderItemsSubtotal o + o.shipping + o.tax - o.discount ∧
      0 ≤ orderItemsSubtotal o ∧ 0 ≤ o.shipping ∧ 0 ≤ o.tax ∧
      o.discount ≤ checkoutDiscountOf st cc := by
  obtain ⟨addr, cart, cd, hA, hC, hAct, hIt, hR, hOrd, _⟩ := checkout_ok_struct h
  have hcd : cd.2 = checkoutDiscountOf st cc := resolveCoupon_ok_discount_eq hR
  intro o ho
  rw [hOrd] at ho
  set groups := groupByVendor st.products cart.items with hg
  set subs := groups.map (fun g => (g.1, itemsSubtotal st.products g.2)) with hs
  set T := (subs.map Prod.snd).sum with hT
  set allocs := allocateDiscounts cd.2 subs T with hal
  obtain ⟨g, hgmem, rfl⟩ := List.mem_map.mp ho
  have hnd : (groups.map Prod.fst).Nodup := groupByVendor_keys_nodup _ _
  have hlook : lookupAlloc subs g.1 = itemsSubtotal st.products g.2 := by
    rw [hs]
    exact lookupAlloc_map_graph _ hnd g hgmem
  refine ⟨?_, ?_, ?_, ?_, ?_⟩
  · rw [orderItemsSubtotal_mkOrderFor, ← hlook]
    rfl
  · rw [orderItemsSubtotal_mkOrderFor]
    exact itemsSubtotal_nonneg _ _ hprice
  · show 0 ≤ (ship (lookupAlloc subs g.1) addr).getD 0
    cases hsv : ship (lookupAlloc subs g.1) addr with
    | none => simp
    | some v => simpa using hship _ _ v hsv
  · exact htax _ _
  · show lookupAlloc allocs g.1 ≤ checkoutDiscountOf st cc
    obtain ⟨m, hm⟩ := hdg
    rcases lookupAlloc_mem_snd_or_zero allocs g.1 with hmem | hzero
    · rw [← hcd]
      rw [hal] at hmem
      have hsubNN : ∀ s ∈ subs.map Prod.snd, 0 ≤ s := by
        intro s hsmem
        rw [hs, List.map_map] at hsmem
        obtain ⟨g2, _, rfl⟩ := List.mem_map.mp hsmem
        exact itemsSubtotal_nonneg _ _ hprice
      exact allocateDiscounts_snd_le (by rw [hcd]; exact hm) (by rw [hcd]; exact hd0)
        subs hsubNN hT _ hmem
    · rw [hzero]
      exact hd0

/-- Witness for C3 (amended): the first order of the concrete two-vendor
checkout satisfies the total equation and its discount is bounded by the
coupon discount. -/
theorem C3_witness :
    ((checkoutOrders (checkout zShip zTax 7 (some "W") stW).1).headD dOrder).total =
      orderItemsSubtotal ((checkoutOrders (checkout zShip zTax 7 (some "W") stW).1).headD dOrder) +
      ((checkoutOrders (checkout zShip zTax 7 (some "W") stW).1).headD dOrder).shipping +
      ((checkoutOrders (checkout zShip zTax 7 (some "W") stW).1).headD dOrder).tax -
      ((checkoutOrders (checkout zShip zTax 7 (some "W") stW).1).headD dOrder).discount ∧
    ((checkoutOrders (checkout zShip zTax 7 (some "W") stW).1).headD dOrder).discount ≤
      checkoutDiscountOf stW (some "W") := by
  have hd3 : checkoutDiscountOf stW (some "W") = 3 := rfl
  have h := C3_order_invariants_amended zShip zTax 7 (some "W") stW (by decide)
    (by
      intro pid
      simp only [stW, prodsW]
      split <;> norm_num)
    (by
      intro s a v hv
      simp only [zShip] at hv
      injection hv with hv
      rw [← hv])
    (by intro s a; simp [zTax])
    (by rw [hd3]; norm_num)
    ⟨300, by rw [hd3]; norm_num⟩
  cases hlist : checkoutOrders (checkout zShip zTax 7 (some "W") stW).1 with
  | nil => exact absurd hlist (by decide)
  | cons o os =>
      have hm : o ∈ checkoutOrders (checkout zShip zTax 7 (some "W") stW).1 := by
        rw [hlist]
        exact List.mem_cons_self o os
      have h2 := h o hm
      simp only [List.headD]
      exact ⟨h2.1, h2.2.2.2.2⟩

theorem checkoutCore_fst (ship : Money → Address → Option Money)
    (tax : Money → Address → Money) (uid : UserId) (addr : Address) (cart : Cart)
    (groups : List (Option VendorId × List CartItem)) (subs : List (Option VendorId × Money))
    (T : Money) (coupon : Option Coupon) (d : Money) (st : CheckoutState) :
    (checkoutCore ship tax uid addr cart groups subs T coupon d st).1 =
      { orders := (materialize ship tax uid addr (coupon.map (fun c => c.code)) st.products subs
          (allocateDiscounts d subs T) groups st.stocks).1,
        shippingWarning := (materialize ship tax uid addr (coupon.map (fun c => c.code))
          st.products subs (allocateDiscounts d subs T) groups st.stocks).2.2 } := rfl

theorem map_items_flatten (f : CartItem → ProductId × ℕ) :
    ∀ gs : List (Option VendorId × List CartItem),
      (gs.map (fun g => g.2.map f)).flatten = (flatItems gs).map f := by
  intro gs
  induction gs with
  | nil => rfl
  | cons g rest ih =>
      rw [List.map_cons, List.flatten_cons, flatItems_cons, List.map_append, ih]

/-- C4: a successful checkout creates one order per distinct vendor group,
the (product, quantity) pairs of the created order items are a permutation
of the cart's pairs, and every order item snapshots the product's name and
price as of checkout time. -/
theorem C4_partition_snapshot (ship : Money → Address → Option Money)
    (tax : Money → Address → Money) (uid : UserId) (cc : Option String) (st : CheckoutState)
    (h : isOkB (checkout ship tax uid cc st).1 = true) :
    (checkoutOrders (checkout ship tax uid cc st).1).length =
      ((cartItemsOf st).map (fun it => (st.products it.productId).vendorId)).dedup.length ∧
    List.Perm
      ((checkoutOrders (checkout ship tax uid cc st).1).map
        (fun o => o.items.map (fun oi => (oi.productId, oi.quantity)))).flatten
      ((cartItemsOf st).map (fun it => (it.productId, it.quantity))) ∧
    (∀ o ∈ checkoutOrders (checkout ship tax uid cc st).1, ∀ oi ∈ o.items,
      oi.productName = (st.products oi.productId).name ∧
      oi.price = (st.products oi.productId).price) := by
  obtain ⟨addr, cart, cd, hA, hC, hAct, hIt, hR, hOrd, _⟩ := checkout_ok_struct h
  have hci : cartItemsOf st = cart.items := by
    unfold cartItemsOf
    rw [hC]
  refine ⟨?_, ?_, ?_⟩
  · rw [hOrd, List.length_map, hci]
    exact groupByVendor_length st.products cart.items
  · rw [hOrd, hci, List.map_map]
    have e1 : ∀ g ∈ groupByVendor st.products cart.items,
        ((fun o => o.items.map (fun oi => (oi.productId, oi.quantity))) ∘
          mkOrderFor ship tax uid addr (cd.1.map (fun c => c.code)) st.products
            ((groupByVendor st.products cart.items).map
              (fun g => (g.1, itemsSubtotal st.products g.2)))
            (allocateDiscounts cd.2
              ((groupByVendor st.products cart.items).map
                (fun g => (g.1, itemsSubtotal st.products g.2)))
              (((groupByVendor st.products cart.items).map
                (fun g => (g.1, itemsSubtotal st.products g.2))).map Prod.snd).sum)) g =
        g.2.map (fun it => (it.productId, it.quantity)) := by
      intro g _
      show (g.2.map (mkOrderItem st.products)).map (fun oi => (oi.productId, oi.quantity)) =
        g.2.map (fun it => (it.productId, it.quantity))
      rw [List.map_map]
      rfl
    rw [List.map_congr_left e1, map_items_flatten]
    exact (groupByVendor_flat st.products cart.items).map _
  · intro o ho oi hoi
    rw [hOrd] at ho
    obtain ⟨g, _, rfl⟩ := List.mem_map.mp ho
    obtain ⟨it, _, rfl⟩ := List.mem_map.mp hoi
    exact ⟨rfl, rfl⟩

/-- Witness for C4: the concrete two-vendor cart produces exactly 2 orders,
one per distinct vendor key. -/
theorem C4_witness :
    (checkoutOrders (checkout zShip zTax 7 (some "W") stW).1).length =
      ((cartItemsOf stW).map (fun it => (stW.products it.productId).vendorId)).dedup.length :=
  (C4_partition_snapshot zShip zTax 7 (some "W") stW (by decide)).1

/-- C5: the checkout's outcome is the same for any initial stock levels
(insufficient stock neither fails the checkout nor backorders), and after a
successful checkout every product's stock is max(stock before - ordered
quantity, 0), hence never negative. -/
theorem C5_stock_clamp (ship : Money → Address → Option Money)
    (tax : Money → Address → Money) (uid : UserId) (cc : Option String) (st : CheckoutState)
    (pid : ProductId) :
    (∀ f, (checkout ship tax uid cc { st with stocks := f }).1 =
      (checkout ship tax uid cc st).1) ∧
    (isOkB (checkout ship tax uid cc st).1 = true → 0 ≤ st.stocks pid →
      (checkout ship tax uid cc st).2.stocks pid =
        max (st.stocks pid - orderedQty st pid) 0) := by
  constructor
  · intro f
    unfold checkout
    dsimp only
    split
    · rfl
    · split
      · rfl
      · split
        · rfl
        · split
          · rfl
          · split
            · rfl
            · rename_i cd heqR
              show Except.ok _ = Except.ok _
              rw [checkoutCore_fst, checkoutCore_fst]
              dsimp only
              rw [materialize_fst, materialize_fst, materialize_warn, materialize_warn]
  · intro hok hnn
    obtain ⟨addr, cart, cd, hA, hC, hAct, hIt, hR, hOrd, hStocks, _⟩ := checkout_ok_struct hok
    rw [hStocks, applyStocks_apply pid _ _ hnn]
    have hq : (((flatItems (groupByVendor st.products cart.items)).filter
          (fun it => it.productId = pid)).map (fun it => (it.quantity : ℤ))).sum =
        orderedQty st pid := by
      unfold orderedQty
      rw [show cartItemsOf st = cart.items from by unfold cartItemsOf; rw [hC]]
      exact List.Perm.sum_eq (((groupByVendor_flat st.products cart.items).filter _).map _)
    rw [hq]

/-- Witness for C5: product 1 (stock 2, ordered quantity 2) ends at
max(2 - 2, 0) = 0 after the concrete checkout. -/
theorem C5_witness :
    (checkout zShip zTax 7 (some "W") stW).2.stocks 1 =
      max (stW.stocks 1 - orderedQty stW 1) 0 :=
  (C5_stock_clamp zShip zTax 7 (some "W") stW 1).2 (by decide) (by decide)

/-- C6: when a coupon code is applied and the checkout succeeds, exactly one
CouponUsage row is appended, referencing the first created order in creation
order. -/
theorem C6_coupon_usage (ship : Money → Address → Option Money)
    (tax : Money → Address → Money) (uid : UserId) (code : String) (st : CheckoutState)
    (h : isOkB (checkout ship tax uid (some code) st).1 = true) :
    ∃ c o os, st.coupons.find? (fun x => x.code = code) = some c ∧
      checkoutOrders (checkout ship tax uid (some code) st).1 = o :: os ∧
      (checkout ship tax uid (some code) st).2.couponUsages =
        st.couponUsages ++ [{ couponCode := c.code, userId := uid, order := o }] := by
  obtain ⟨addr, cart, cd, hA, hC, hAct, hIt, hR, hOrd, hStocks, hCart, hAddr, hOrders, hUs, _⟩ :=
    checkout_ok_struct h
  rcases resolveCoupon_ok_cases hR with ⟨hnone, _⟩ | ⟨code', c, hcode, hf, hv, hcd⟩
  · exact absurd hnone (by simp)
  · obtain rfl : code = code' := Option.some.inj hcode
    have hgne := groupByVendor_ne_nil st.products hIt
    obtain ⟨g, gs, hgs⟩ : ∃ g gs, groupByVendor st.products cart.items = g :: gs := by
      cases hG : groupByVendor st.products cart.items with
      | nil => exact absurd hG hgne
      | cons g gs => exact ⟨g, gs, rfl⟩
    obtain ⟨o, os, hOs⟩ : ∃ o os,
        checkoutOrders (checkout ship tax uid (some code) st).1 = o :: os := by
      rw [hOrd, hgs, List.map_cons]
      exact ⟨_, _, rfl⟩
    refine ⟨c, o, os, hf, hOs, ?_⟩
    rw [hUs, hOs, hcd]

/-- Witness for C6: the concrete checkout with coupon "W" appends exactly
one CouponUsage row. -/
theorem C6_witness :
    (checkout zShip zTax 7 (some "W") stW).2.couponUsages.length =
      stW.couponUsages.length + 1 := by
  obtain ⟨c, o, os, hf, hord, hus⟩ := C6_coupon_usage zShip zTax 7 "W" stW (by decide)
  rw [hus]
  simp

theorem checkout_error_conds (ship : Money → Address → Option Money)
    (tax : Money → Address → Money) (uid : UserId) (cc : Option String) (st : CheckoutState) :
    (∃ e, (checkout ship tax uid cc st).1 = Except.error e) ↔
      (resolveAddress st.addresses = none ∨
       st.cart = none ∨
       (∃ c, st.cart = some c ∧ (c.isActive = false ∨ c.items = [])) ∨
       (∃ e, resolveCouponAndDiscount st.coupons uid cc (cartSubtotalOf st) =
         Except.error e)) := by
  unfold checkout
  split
  · rename_i heqA
    exact iff_of_true ⟨_, rfl⟩ (Or.inl heqA)
  · rename_i addr heqA
    split
    · rename_i heqC
      exact iff_of_true ⟨_, rfl⟩ (Or.inr (Or.inl heqC))
    · rename_i cart heqC
      split
      · rename_i hAct
        exact iff_of_true ⟨_, rfl⟩ (Or.inr (Or.inr (Or.inl ⟨cart, heqC, Or.inl hAct⟩)))
      · rename_i hAct
        split
        · rename_i hIt
          exact iff_of_true ⟨_, rfl⟩ (Or.inr (Or.inr (Or.inl ⟨cart, heqC, Or.inr hIt⟩)))
        · rename_i hIt
          dsimp only
          split
          · rename_i e heqR
            refine iff_of_true ⟨e, rfl⟩ (Or.inr (Or.inr (Or.inr ⟨e, ?_⟩)))
            rw [← subsSum_eq_cartSubtotal heqC]
            exact heqR
          · rename_i cd heqR
            apply iff_of_false
            · rintro ⟨e, he⟩
              exact Except.noConfusion he
            · rintro (h1 | h2 | ⟨c, hc, hbad⟩ | ⟨e, he⟩)
              · rw [heqA] at h1
                exact Option.noConfusion h1
              · rw [heqC] at h2
                exact Option.noConfusion h2
              · rw [heqC] at hc
                obtain rfl : cart = c := Option.some.inj hc
                rcases hbad with hb | hb
                · exact hAct hb
                · exact hIt hb
              · rw [← subsSum_eq_cartSubtotal heqC] at he
                rw [heqR] at he
                exact Except.noConfusion he

/-- C7: the checkout fails (with a client error, leaving the state exactly
as before) precisely when there is no address on file, the active cart is
missing, inactive or empty, or a coupon code was supplied whose coupon is
unknown or invalid for the user. -/
theorem C7_failure_characterization (ship : Money → Address → Option Money)
    (tax : Money → Address → Money) (uid : UserId) (cc : Option String) (st : CheckoutState) :
    (∀ e, (checkout ship tax uid cc st).1 = Except.error e →
      (checkout ship tax uid cc st).2 = st) ∧
    ((∃ e, (checkout ship tax uid cc st).1 = Except.error e) ↔
      (resolveAddress st.addresses = none ∨
       st.cart = none ∨
       (∃ c, st.cart = some c ∧ (c.isActive = false ∨ c.items = [])) ∨
       (∃ code, cc = some code ∧
         (st.coupons.find? (fun c => c.code = code) = none ∨
          ∃ c, st.coupons.find? (fun c => c.code = code) = some c ∧
            (c.validFor uid (cartSubtotalOf st)).1 = false)))) := by
  constructor
  · intro e h1
    rcases checkout_cases ship tax uid cc st with ⟨e2, heq⟩ | h2
    · rw [heq]
    · obtain ⟨addr, cart, cd, _, _, _, _, _, hEq⟩ := h2
      rw [hEq] at h1
      exact absurd h1 (by simp)
  · rw [checkout_error_conds, resolveCoupon_error_iff]

/-- Witness for C7: a state with no address on file makes checkout fail and
leaves the state untouched. -/
theorem C7_witness :
    (checkout zShip zTax 0 none stNoAddr).2 = stNoAddr ∧
    (∃ e, (checkout zShip zTax 0 none stNoAddr).1 = Except.error e) := by
  have h := C7_failure_characterization zShip zTax 0 none stNoAddr
  have he : ∃ e, (checkout zShip zTax 0 none stNoAddr).1 = Except.error e :=
    h.2.mpr (Or.inl rfl)
  obtain ⟨e, he2⟩ := he
  exact ⟨h.1 e he2, e, he2⟩

/-- C8: a successful checkout empties the cart's items and marks the cart
checked-out without deleting the cart row, and a second checkout call in the
resulting state fails with the cart-empty client error without changing
anything. -/
theorem C8_cart_cleared (ship ship2 : Money → Address → Option Money)
    (tax tax2 : Money → Address → Money) (uid : UserId) (cc cc2 : Option String)
    (st : CheckoutState)
    (h : isOkB (checkout ship tax uid cc st).1 = true) :
    (∃ cart, st.cart = some cart ∧
      (checkout ship tax uid cc st).2.cart =
        some { cart with items := [], checkedOut := true }) ∧
    checkout ship2 tax2 uid cc2 ((checkout ship tax uid cc st).2) =
      (Except.error CheckoutError.cartEmpty, (checkout ship tax uid cc st).2) := by
  obtain ⟨addr, cart, cd, hA, hC, hAct, hIt, hR, hOrd, hStocks, hCart, hAddr, _⟩ :=
    checkout_ok_struct h
  refine ⟨⟨cart, hC, hCart⟩, ?_⟩
  set st2 := (checkout ship tax uid cc st).2 with hst2
  unfold checkout
  rw [hAddr, hA, hCart]
  dsimp only
  rw [hAct]
  simp

/-- Witness for C8: after the concrete successful checkout, a second call
fails with the cart-empty error and changes nothing. -/
theorem C8_witness :
    checkout zShip zTax 7 none ((checkout zShip zTax 7 (some "W") stW).2) =
      (Except.error CheckoutError.cartEmpty, (checkout zShip zTax 7 (some "W") stW).2) :=
  (C8_cart_cleared zShip zShip zTax zTax 7 (some "W") none stW (by decide)).2

theorem perm_true_of_approved_vendor_admin {u : User} {v : Vendor}
    (hauth : u.isAuthenticated = true) (hrole : u.role = "vendor_admin")
    (hv : u.vendor = some v) (hst : v.status = "approved") :
    isAdminManagerOrApprovedVendorAdmin u = true := by
  unfold isAdminManagerOrApprovedVendorAdmin
  rw [if_neg (by rw [hauth]; exact fun hc => Bool.noConfusion hc)]
  by_cases hbig : u.role = "admin" ∨ u.role = "manager" ∨ u.isStaff = true ∨ u.isSuperuser = true
  · rw [if_pos hbig]
  · rw [if_neg hbig, hv]
    simp [hrole, hst]

/-- C9 counterexample: a vendor_admin whose vendor is still pending gets a
forbidden response (the permission class denies access before the handler),
not the claimed not-found response, when targeting another vendor's order. -/
theorem C9_counterexample :
    (orderStatusUpdatePatch noSetStatus uPending dbV2 1 none none none).1 =
      PatchResult.forbidden ∧
    PatchResult.forbidden ≠ PatchResult.notFound := by
  exact ⟨by decide, by decide⟩

/-- C9 (amended): an authenticated vendor_admin whose vendor is approved,
requesting a status update on an existing order of a different vendor (or of
no vendor), receives the not-found response and the order table is
unchanged. -/
theorem C9_cross_vendor_not_found_amended (setStatus : Order → String → Option Order)
    (u : User) (db : ℕ → Option Order) (pk : ℕ) (order : Order)
    (newStatus trackingNumber adminNote : Option String)
    (hauth : u.isAuthenticated = true)
    (hrole : u.role = "vendor_admin")
    (happr : ∃ v, u.vendor = some v ∧ v.status = "approved")
    (hord : db pk = some order)
    (hvend : order.vendorId ≠ userVendorId u) :
    orderStatusUpdatePatch setStatus u db pk newStatus trackingNumber adminNote =
      (PatchResult.notFound, db) := by
  obtain ⟨v, hv, hst⟩ := happr
  have hperm := perm_true_of_approved_vendor_admin hauth hrole hv hst
  unfold orderStatusUpdatePatch
  rw [if_neg (by rw [hauth]; exact fun hc => Bool.noConfusion hc)]
  rw [if_neg (by rw [hperm]; exact fun hc => Bool.noConfusion hc)]
  split
  · rename_i heq
    rw [hord] at heq
  · rename_i order2 heq
    rw [hord] at heq
    obtain rfl : order = order2 := Option.some.inj heq
    rw [if_pos ⟨hrole, hvend⟩]

/-- Witness for C9 (amended): the approved vendor_admin of vendor 1 gets
not-found for vendor 2's order, with the order table unchanged. -/
theorem C9_witness :
    orderStatusUpdatePatch noSetStatus uApproved dbV2 1 none none none =
      (PatchResult.notFound, dbV2) :=
  C9_cross_vendor_not_found_amended noSetStatus uApproved dbV2 1 orderV2 none none none
    rfl rfl ⟨{ id := 1, status := "approved" }, rfl, rfl⟩ rfl (by decide)

/-- C10 counterexample: a user whose role is vendor_admin but who is also
staff receives every order from the list queryset, not only the
vendor-null orders. -/
theorem C10_counterexample :
    orderListQueryset uStaffVendorAdmin ordersC10 ≠
      ordersC10.filter (fun o => o.vendorId = none) := by
  decide

/-- C10 (amended): an authenticated non-staff user whose role is
vendor_admin and who has no linked vendor gets, from both the order list and
the order detail querysets, exactly the orders whose vendor is null. -/
theorem C10_null_vendor_platform_amended (u : User) (orders : List Order)
    (hrole : u.role = "vendor_admin") (hv : u.vendor = none) (hstaff : u.isStaff = false) :
    orderListQueryset u orders = orders.filter (fun o => o.vendorId = none) ∧
    orderDetailQueryset u orders = orders.filter (fun o => o.vendorId = none) := by
  have hcond : ¬(u.isStaff = true ∨ u.role = "admin" ∨ u.role = "manager") := by
    rintro (h1 | h1 | h1)
    · rw [hstaff] at h1
      exact Bool.noConfusion h1
    · rw [hrole] at h1
      exact absurd h1 (by decide)
    · rw [hrole] at h1
      exact absurd h1 (by decide)
  have hvid : userVendorId u = none := by
    unfold userVendorId
    rw [hv]
    rfl
  constructor
  · unfold orderListQueryset
    rw [if_neg hcond, if_pos hrole]
    simp only [hvid]
  · unfold orderDetailQueryset
    rw [if_neg hcond, if_pos hrole]
    simp only [hvid]

/-- Witness for C10 (amended): the vendor-less vendor_admin sees exactly the
platform (vendor-null) orders of the concrete order table. -/
theorem C10_witness :
    orderListQueryset uNoVendor ordersC10 =
      ordersC10.filter (fun o => o.vendorId = none) :=
  (C10_null_vendor_platform_amended uNoVendor ordersC10 rfl rfl rfl).1

end DiscountShop
